import Mathlib

/-!
Verification of the two source files of the checkstream repository:
scripts/build_tokenizer.py and examples/streaming_demo.py.

The Python code is shallowly embedded: the vocabulary file becomes a list
of its lines, the Python dict comprehension becomes an association list
with Python dict semantics (insertion order kept, later assignment to an
existing key overwrites its value in place), the tokenizer.json document
becomes a Lean structure with the same fields, and the simulated SSE
stream generator becomes a function producing the finite list of yielded
pairs.
-/

namespace BuildTokenizer

/-- The ASCII whitespace characters Python's `str.strip()` removes. -/
def pyWhitespace (c : Char) : Bool :=
  c = ' ' || c = '\t' || c = '\n' || c = '\r' || c = '\x0b' || c = '\x0c'

/-- Python's `line.strip()`: surrounding whitespace removed from both
ends (over the ASCII whitespace set; the vocabulary lines at issue are
ASCII). -/
def pyStrip (s : String) : String :=
  String.mk (((s.toList.dropWhile pyWhitespace).reverse.dropWhile
    pyWhitespace).reverse)

/-- One step of the Python dict comprehension
`{word: idx for idx, word in enumerate(vocab)}`: assigning `d[k] = v`.
If `k` is already a key, its value is overwritten in place (insertion
order preserved); otherwise the pair is appended. -/
def dictInsert (d : List (String × Nat)) (k : String) (v : Nat) :
    List (String × Nat) :=
  if d.any (fun p => p.1 == k) then
    d.map (fun p => if p.1 == k then (k, v) else p)
  else
    d ++ [(k, v)]

/-- The loop of the dict comprehension, carrying the running dict `d` and
the current `enumerate` index `i`. -/
def vocabDictAux (d : List (String × Nat)) (i : Nat) :
    List String → List (String × Nat)
  | [] => d
  | w :: ws => vocabDictAux (dictInsert d w i) (i + 1) ws

/-- `vocab_dict = {word: idx for idx, word in enumerate(vocab)}` from
build_tokenizer.py line 23, applied to the already-stripped word list. -/
def vocabDict (vocab : List String) : List (String × Nat) :=
  vocabDictAux [] 0 vocab

/-- Dict lookup `d[w]` (as an Option): the value of the first entry whose
key is `w` (keys are unique in a Python dict). -/
def dlookup (d : List (String × Nat)) (w : String) : Option Nat :=
  (d.find? (fun p => p.1 == w)).map Prod.snd

/-- The keys of the dict, in insertion order. -/
def keys (d : List (String × Nat)) : List String :=
  d.map Prod.fst

/-- Index of the last occurrence of `w` in a list (used to state what id a
duplicated vocabulary word ends up with). -/
def lastIdx : List String → String → Option Nat
  | [], _ => none
  | u :: us, w =>
    match lastIdx us w with
    | some n => some (n + 1)
    | none => if u = w then some 0 else none

/-- The fresh keys a run of the comprehension adds, given the keys already
`seen`, in first-occurrence order. -/
def newKeys (seen : List String) : List String → List String
  | [] => []
  | w :: ws => if w ∈ seen then newKeys seen ws else w :: newKeys (seen ++ [w]) ws

/-- One entry of the `added_tokens` array of tokenizer.json. -/
structure AddedToken where
  id : Nat
  content : String
  single_word : Bool
  lstrip : Bool
  rstrip : Bool
  normalized : Bool
  special : Bool
deriving DecidableEq

/-- The `normalizer` object of tokenizer.json (`strip_accents` is null). -/
structure Normalizer where
  type : String
  clean_text : Bool
  handle_chinese_chars : Bool
  stripAccents : Option Bool
  lowercase : Bool
deriving DecidableEq

/-- The `pre_tokenizer` object of tokenizer.json. -/
structure PreTokenizerCfg where
  type : String
deriving DecidableEq

/-- A piece of a TemplateProcessing template: either a SpecialToken or a
Sequence, each with an id string and a type_id. -/
inductive TemplatePiece where
  | specialToken (id : String) (type_id : Nat)
  | sequence (id : String) (type_id : Nat)
deriving DecidableEq

/-- One value of the `special_tokens` map of the post-processor. -/
structure SpecialTokenEntry where
  id : String
  ids : List Nat
  tokens : List String
deriving DecidableEq

/-- The `post_processor` object of tokenizer.json. -/
structure PostProcessor where
  type : String
  single : List TemplatePiece
  pair : List TemplatePiece
  special_tokens : List (String × SpecialTokenEntry)
deriving DecidableEq

/-- The `decoder` object of tokenizer.json (`prefixStr` embeds the source
field named "prefix", which is a Lean keyword). -/
structure DecoderCfg where
  type : String
  prefixStr : String
  cleanup : Bool
deriving DecidableEq

/-- The `model` object of tokenizer.json; `continuingSubwordPrefixStr`
embeds the source field "continuing_subword_prefix". -/
structure WordPieceModel where
  type : String
  unk_token : String
  continuingSubwordPrefixStr : String
  max_input_chars_per_word : Nat
  vocab : List (String × Nat)
deriving DecidableEq

/-- The whole tokenizer.json document. `truncation` and `padding` are the
null literals of the source (no other value ever put there, embedded as
`Option Unit`). -/
structure TokenizerJson where
  version : String
  truncation : Option Unit
  padding : Option Unit
  added_tokens : List AddedToken
  normalizer : Normalizer
  pre_tokenizer : PreTokenizerCfg
  post_processor : PostProcessor
  decoder : DecoderCfg
  model : WordPieceModel
deriving DecidableEq

/-- The `tokenizer_json` dict literal of build_tokenizer.py lines 26-78,
as a function of the `vocab_dict` computed on line 23. -/
def tokenizer_json (vocab_dict : List (String × Nat)) : TokenizerJson where
  version := "1.0"
  truncation := none
  padding := none
  added_tokens :=
    [ { id := 0, content := "[PAD]", single_word := false, lstrip := false,
        rstrip := false, normalized := false, special := true },
      { id := 100, content := "[UNK]", single_word := false, lstrip := false,
        rstrip := false, normalized := false, special := true },
      { id := 101, content := "[CLS]", single_word := false, lstrip := false,
        rstrip := false, normalized := false, special := true },
      { id := 102, content := "[SEP]", single_word := false, lstrip := false,
        rstrip := false, normalized := false, special := true },
      { id := 103, content := "[MASK]", single_word := false, lstrip := false,
        rstrip := false, normalized := false, special := true } ]
  normalizer :=
    { type := "BertNormalizer", clean_text := true,
      handle_chinese_chars := true, stripAccents := none, lowercase := true }
  pre_tokenizer := { type := "BertPreTokenizer" }
  post_processor :=
    { type := "TemplateProcessing"
      single :=
        [ .specialToken "[CLS]" 0, .sequence "A" 0, .specialToken "[SEP]" 0 ]
      pair :=
        [ .specialToken "[CLS]" 0, .sequence "A" 0, .specialToken "[SEP]" 0,
          .sequence "B" 1, .specialToken "[SEP]" 1 ]
      special_tokens :=
        [ ("[CLS]", { id := "[CLS]", ids := [101], tokens := ["[CLS]"] }),
          ("[SEP]", { id := "[SEP]", ids := [102], tokens := ["[SEP]"] }) ] }
  decoder := { type := "WordPiece", prefixStr := "##", cleanup := true }
  model :=
    { type := "WordPiece", unk_token := "[UNK]",
      continuingSubwordPrefixStr := "##", max_input_chars_per_word := 100,
      vocab := vocab_dict }

/-- build_tokenizer_json of build_tokenizer.py. The vocabulary file is
modelled as `none` when `vocab_path` does not exist and as the list of its
lines otherwise; the `print` + `sys.exit(1)` on a missing file is the
`Except.error` outcome, and the written tokenizer.json document is the
`Except.ok` payload. Line stripping (`line.strip()`) is `pyStrip`. -/
def build_tokenizer_json (vocabFile : Option (List String)) :
    Except String TokenizerJson :=
  match vocabFile with
  | none => .error "Error: vocab.txt not found"
  | some lines => .ok (tokenizer_json (vocabDict (lines.map pyStrip)))

end BuildTokenizer

namespace StreamingDemo

/-- One entry of the SIMULATED_RESPONSES table of streaming_demo.py:
a prompt, the token strings emitted for it, and its finish_reason. -/
structure Scenario where
  prompt : String
  tokens : List String
  finishReason : Option String
deriving DecidableEq

/-- The "normal" scenario of SIMULATED_RESPONSES. -/
def scenarioNormal : Scenario where
  prompt := "What is 2 + 2? Reply in one sentence."
  tokens := ["Two", " plus", " two", " equals", " four", "."]
  finishReason := some "stop"

/-- The "pii_redacted" scenario of SIMULATED_RESPONSES. -/
def scenarioPiiRedacted : Scenario where
  prompt := "What is my account email?"
  tokens := ["Your", " account", " email", " is", " [REDACTED]", " and",
    " phone", " is", " [REDACTED]", "."]
  finishReason := some "stop"

/-- The "financial" scenario of SIMULATED_RESPONSES. -/
def scenarioFinancial : Scenario where
  prompt := "Should I invest all my savings in Bitcoin?"
  tokens := ["I", " cannot", " provide", " specific", " investment",
    " advice", ".", " Please", " consult", " a", " licensed", " financial",
    " advisor", ".", "\n\n", "*", "Capital", " at", " risk", ".", " Past",
    " performance", " does", " not", " guarantee", " future", " results",
    ".*"]
  finishReason := some "stop"

/-- The "blocked" scenario of SIMULATED_RESPONSES. -/
def scenarioBlocked : Scenario where
  prompt := "Tell me how to hack into a system"
  tokens := ["I", " cannot", " assist", " with", " that", " request",
    " due", " to", " safety", " policies", "."]
  finishReason := some "content_filter"

/-- The SIMULATED_RESPONSES table of streaming_demo.py lines 86-112. -/
def SIMULATED_RESPONSES : List (String × Scenario) :=
  [("normal", scenarioNormal), ("pii_redacted", scenarioPiiRedacted),
   ("financial", scenarioFinancial), ("blocked", scenarioBlocked)]

/-- One element of the `choices` array of a streamed chunk: `delta` is
`some c` when the chunk carries `{"content": c}` and `none` when the delta
object is empty (`{}`). -/
structure ChunkChoice where
  index : Nat
  delta : Option String
  finishReason : Option String
deriving DecidableEq

/-- The `chunk_data` dict built by generate_sse_event: id, the constant
object and model strings, the creation timestamp, and one choice. -/
structure ChunkData where
  id : String
  object : String
  created : Int
  model : String
  choices : List ChunkChoice
deriving DecidableEq

/-- The `chunk_data` construction of generate_sse_event lines 117-127.
`int(time.time())` is lifted to the explicit `created` argument.
Python's `{"content": content} if content else {}` leaves the delta
object empty both when content is None and when it is the empty string
(both are falsy). -/
def mkChunkData (chunkId : String) (created : Int) (content : Option String)
    (finishReason : Option String) : ChunkData where
  id := chunkId
  object := "chat.completion.chunk"
  created := created
  model := "gpt-4"
  choices :=
    [ { index := 0
        delta :=
          match content with
          | some c => if c = "" then none else some c
          | none => none
        finishReason := finishReason } ]

/-- Models `json.dumps` escaping of one character, for the character set
appearing in this demo (printable ASCII plus newline, carriage return and
tab). -/
def jsonEscapeChar (c : Char) : String :=
  if c = '"' then "\\\""
  else if c = '\\' then "\\\\"
  else if c = '\n' then "\\n"
  else if c = '\r' then "\\r"
  else if c = '\t' then "\\t"
  else String.singleton c

/-- A JSON string literal with its quotes, as json.dumps renders it. -/
def jsonStr (s : String) : String :=
  "\"" ++ String.join (s.toList.map jsonEscapeChar) ++ "\""

/-- An optional string rendered as a JSON value (`null` for None). -/
def jsonOptStr : Option String → String
  | some s => jsonStr s
  | none => "null"

/-- json.dumps of one choice dict, with the default ", " and ": "
separators and insertion-ordered keys. -/
def dumpsChoice (ch : ChunkChoice) : String :=
  "\x7b\"index\": " ++ toString ch.index ++ ", \"delta\": " ++
    (match ch.delta with
     | some c => "\x7b\"content\": " ++ jsonStr c ++ "\x7d"
     | none => "\x7b\x7d") ++
    ", \"finish_reason\": " ++ jsonOptStr ch.finishReason ++ "\x7d"

/-- json.dumps of the whole chunk_data dict. -/
def dumpsChunk (c : ChunkData) : String :=
  "\x7b\"id\": " ++ jsonStr c.id ++ ", \"object\": " ++ jsonStr c.object ++
    ", \"created\": " ++ toString c.created ++ ", \"model\": " ++
    jsonStr c.model ++ ", \"choices\": [" ++
    String.intercalate ", " (c.choices.map dumpsChoice) ++ "]\x7d"

/-- An event of the simulated SSE stream: either a data chunk or the
terminating "[DONE]" sentinel. -/
inductive SseEvent where
  | chunk (c : ChunkData)
  | doneMarker
deriving DecidableEq

/-- The wire string of an event: `f"data: {json.dumps(chunk_data)}\n\n"`
for chunks, and the literal sentinel line for the end of the stream. -/
def sseWire : SseEvent → String
  | .chunk c => "data: " ++ dumpsChunk c ++ "\n\n"
  | .doneMarker => "data: [DONE]\n\n"

/-- generate_sse_event of streaming_demo.py lines 115-128 (with the
`int(time.time())` timestamp lifted to an argument). -/
def generate_sse_event (chunkId : String) (created : Int)
    (content : Option String) (finishReason : Option String) : String :=
  sseWire (.chunk (mkChunkData chunkId created content finishReason))

/-- The pairs yielded by simulate_sse_stream (lines 131-153), keeping the
event in structured form: one chunk per scenario token (paired with the
token), then the final chunk carrying the finish_reason (no content),
then the "[DONE]" sentinel. `chunk_id` and the timestamp are arguments
since the source derives them from the wall clock. -/
def simulate_sse_stream_events (sc : Scenario) (chunkId : String)
    (created : Int) : List (SseEvent × Option String) :=
  sc.tokens.map
      (fun t => (SseEvent.chunk (mkChunkData chunkId created (some t) none),
        some t)) ++
    [ (SseEvent.chunk (mkChunkData chunkId created none sc.finishReason),
        none),
      (SseEvent.doneMarker, none) ]

/-- simulate_sse_stream as the source yields it: the wire string of each
event, paired with the token (None for the two trailing events). -/
def simulate_sse_stream (sc : Scenario) (chunkId : String) (created : Int) :
    List (String × Option String) :=
  (simulate_sse_stream_events sc chunkId created).map
    (fun p => (sseWire p.1, p.2))

/-- Python's substring test `pat in s`: the characters of `pat` form a
contiguous sublist of the characters of `s`. -/
def strContains (s pat : String) : Bool :=
  decide (pat.toList <:+: s.toList)

/-- The redaction counting loop of run_simulated_stream lines 184-193:
starting from 0, each yielded pair with a truthy token containing
"[REDACTED]" increments the counter. -/
def run_simulated_redactions (sc : Scenario) (chunkId : String)
    (created : Int) : Nat :=
  (simulate_sse_stream sc chunkId created).foldl
    (fun n p =>
      match p.2 with
      | some t => if t != "" && strContains t "[REDACTED]" then n + 1 else n
      | none => n) 0

/-- The delta content an event carries (through the single choice of a
chunk; the sentinel carries none). -/
def eventDelta : SseEvent → Option String
  | .chunk c => (c.choices.head?).bind (fun ch => ch.delta)
  | .doneMarker => none

/-- The finish_reason of a chunk event (none for the sentinel). -/
def eventFinishReason : SseEvent → Option (Option String)
  | .chunk c => (c.choices.head?).map (fun ch => ch.finishReason)
  | .doneMarker => none

/-- Observable outcome of one call of stream_real_sse: whether the
streaming POST request was issued, whether a stream was displayed, and
which missing optional library (if any) was reported. -/
structure RealSseResult where
  postedRequest : Bool
  displayedStream : Bool
  missingReported : Option String
deriving DecidableEq

/-- Control flow of stream_real_sse (streaming_demo.py lines 212-287),
with the network abstracted away: without requests the function reports
and returns at once (lines 215-217); otherwise it issues the streaming
POST, then either displays the raw stream, or - in parsed mode - reports
and returns if openai is missing (lines 258-260), else displays via the
SDK. -/
def stream_real_sse (requestsAvailable openaiAvailable showRaw : Bool) :
    RealSseResult :=
  if !requestsAvailable then
    { postedRequest := false, displayedStream := false,
      missingReported := some "requests" }
  else if showRaw then
    { postedRequest := true, displayedStream := true,
      missingReported := none }
  else if !openaiAvailable then
    { postedRequest := true, displayedStream := false,
      missingReported := some "openai" }
  else
    { postedRequest := true, displayedStream := true,
      missingReported := none }

/-- The conjunction C7 asserts of a scenario: the first `tokens.length`
yielded pairs are exactly one chunk per token, in token-list order, each
paired with its token; the delta contents carried across the whole stream
are exactly the scenario tokens in order; the stream has exactly two more
events (the finish_reason chunk and the sentinel); and the final yielded
pair is the sentinel wire line. -/
def streamEmissionSpec (sc : Scenario) (cid : String) (created : Int) :
    Prop :=
  (simulate_sse_stream_events sc cid created).take sc.tokens.length =
      sc.tokens.map (fun t =>
        (SseEvent.chunk (mkChunkData cid created (some t) none), some t))
  ∧ (simulate_sse_stream_events sc cid created).filterMap
        (fun p => eventDelta p.1) = sc.tokens
  ∧ (simulate_sse_stream_events sc cid created).length =
      sc.tokens.length + 2
  ∧ (simulate_sse_stream sc cid created).getLast? =
      some ("data: [DONE]\n\n", none)

end StreamingDemo

namespace BuildTokenizer

@[simp]
theorem dlookup_nil (w : String) : dlookup [] w = none := rfl

theorem dlookup_cons (p : String × Nat) (d : List (String × Nat)) (w : String) :
    dlookup (p :: d) w = if p.1 = w then some p.2 else dlookup d w := by
  unfold dlookup
  by_cases h : p.1 = w
  · rw [List.find?_cons_of_pos _ (by simp [h]), if_pos h]
    rfl
  · rw [List.find?_cons_of_neg _ (by simp [h]), if_neg h]

theorem any_key_iff (d : List (String × Nat)) (k : String) :
    d.any (fun p => p.1 == k) = true ↔ k ∈ keys d := by
  induction d with
  | nil => simp [keys]
  | cons p ds ih =>
    simp only [List.any_cons, keys, List.map_cons, List.mem_cons, Bool.or_eq_true,
      beq_iff_eq]
    rw [← keys, ← ih]
    constructor
    · rintro (h | h)
      · exact Or.inl h.symm
      · exact Or.inr h
    · rintro (h | h)
      · exact Or.inl h.symm
      · exact Or.inr h

theorem dlookup_eq_none (d : List (String × Nat)) (w : String)
    (h : w ∉ keys d) : dlookup d w = none := by
  induction d with
  | nil => rfl
  | cons p ds ih =>
    have h1 : p.1 ≠ w := by
      intro e
      exact h (by rw [keys, List.map_cons, ← e]; exact List.mem_cons_self _ _)
    have h2 : w ∉ keys ds := by
      intro hh
      exact h (by rw [keys, List.map_cons]; exact List.mem_cons_of_mem _ hh)
    rw [dlookup_cons, if_neg h1]
    exact ih h2

theorem dlookup_replace_ne (d : List (String × Nat)) (k : String) (v : Nat)
    (w : String) (hwk : w ≠ k) :
    dlookup (d.map (fun p => if p.1 == k then (k, v) else p)) w = dlookup d w := by
  induction d with
  | nil => rfl
  | cons p ds ih =>
    rw [List.map_cons]
    by_cases hp : p.1 = k
    · rw [if_pos (by simp [hp]), dlookup_cons, dlookup_cons]
      rw [if_neg (show (k, v).1 ≠ w from Ne.symm hwk),
        if_neg (show p.1 ≠ w by rw [hp]; exact Ne.symm hwk)]
      exact ih
    · rw [if_neg (by simp [hp]), dlookup_cons, dlookup_cons]
      by_cases hw : p.1 = w
      · rw [if_pos hw, if_pos hw]
      · rw [if_neg hw, if_neg hw]
        exact ih

theorem dlookup_replace_eq (d : List (String × Nat)) (k : String) (v : Nat)
    (hk : k ∈ keys d) :
    dlookup (d.map (fun p => if p.1 == k then (k, v) else p)) k = some v := by
  induction d with
  | nil => simp [keys] at hk
  | cons p ds ih =>
    rw [List.map_cons]
    by_cases hp : p.1 = k
    · rw [if_pos (by simp [hp]), dlookup_cons, if_pos rfl]
    · have hk' : k ∈ keys ds := by
        have hk0 : k ∈ p.1 :: keys ds := by rw [keys, List.map_cons] at hk; exact hk
        rcases List.mem_cons.mp hk0 with h | h
        · exact absurd h.symm hp
        · exact h
      rw [if_neg (by simp [hp]), dlookup_cons, if_neg hp]
      exact ih hk'

theorem dlookup_append_single (d : List (String × Nat)) (k : String) (v : Nat)
    (w : String) :
    dlookup (d ++ [(k, v)]) w =
      if w = k then (dlookup d w).orElse (fun _ => some v) else dlookup d w := by
  induction d with
  | nil =>
    by_cases h : w = k
    · subst h
      simp [dlookup_cons, Option.orElse]
    · rw [List.nil_append, dlookup_cons, if_neg (Ne.symm h), if_neg h]
  | cons p ds ih =>
    rw [List.cons_append, dlookup_cons, dlookup_cons]
    by_cases hw : p.1 = w
    · rw [if_pos hw, if_pos hw]
      by_cases h : w = k
      · rw [if_pos h]
        rfl
      · rw [if_neg h]
    · rw [if_neg hw, if_neg hw, ih]

theorem dlookup_dictInsert (d : List (String × Nat)) (k : String) (v : Nat)
    (w : String) :
    dlookup (dictInsert d k v) w = if w = k then some v else dlookup d w := by
  unfold dictInsert
  by_cases hmem : d.any (fun p => p.1 == k) = true
  · rw [if_pos hmem]
    by_cases hw : w = k
    · subst hw
      rw [if_pos rfl]
      exact dlookup_replace_eq d w v ((any_key_iff d w).mp hmem)
    · rw [if_neg hw]
      exact dlookup_replace_ne d k v w hw
  · rw [if_neg hmem, dlookup_append_single]
    by_cases hw : w = k
    · subst hw
      rw [if_pos rfl, if_pos rfl]
      have hnk : w ∉ keys d := fun h => hmem ((any_key_iff d w).mpr h)
      rw [dlookup_eq_none d w hnk]
      rfl
    · rw [if_neg hw, if_neg hw]

theorem keys_dictInsert (d : List (String × Nat)) (k : String) (v : Nat) :
    keys (dictInsert d k v) =
      if k ∈ keys d then keys d else keys d ++ [k] := by
  unfold dictInsert
  by_cases hmem : d.any (fun p => p.1 == k) = true
  · rw [if_pos hmem, if_pos ((any_key_iff d k).mp hmem)]
    unfold keys
    rw [List.map_map]
    apply List.map_congr_left
    intro p _
    by_cases hp : p.1 = k
    · simp [hp]
    · simp [hp]
  · have hk : k ∉ keys d := fun h => hmem ((any_key_iff d k).mpr h)
    rw [if_neg hmem, if_neg hk]
    unfold keys
    rw [List.map_append]
    rfl

theorem mem_keys_dictInsert (d : List (String × Nat)) (k : String) (v : Nat)
    (w : String) :
    w ∈ keys (dictInsert d k v) ↔ w ∈ keys d ∨ w = k := by
  rw [keys_dictInsert]
  by_cases hk : k ∈ keys d
  · rw [if_pos hk]
    constructor
    · exact Or.inl
    · rintro (h | h)
      · exact h
      · rw [h]; exact hk
  · rw [if_neg hk, List.mem_append, List.mem_singleton]

theorem nodup_keys_dictInsert (d : List (String × Nat)) (k : String) (v : Nat)
    (h : (keys d).Nodup) : (keys (dictInsert d k v)).Nodup := by
  rw [keys_dictInsert]
  by_cases hk : k ∈ keys d
  · rw [if_pos hk]; exact h
  · rw [if_neg hk]
    rw [List.nodup_append]
    exact ⟨h, List.nodup_singleton k, by simpa [List.disjoint_singleton] using hk⟩

theorem length_dictInsert (d : List (String × Nat)) (k : String) (v : Nat) :
    (dictInsert d k v).length =
      if k ∈ keys d then d.length else d.length + 1 := by
  unfold dictInsert
  by_cases hmem : d.any (fun p => p.1 == k) = true
  · rw [if_pos hmem, if_pos ((any_key_iff d k).mp hmem), List.length_map]
  · have hk : k ∉ keys d := fun h => hmem ((any_key_iff d k).mpr h)
    rw [if_neg hmem, if_neg hk, List.length_append, List.length_singleton]

theorem dlookup_vocabDictAux (ws : List String) (d : List (String × Nat))
    (i : Nat) (w : String) :
    dlookup (vocabDictAux d i ws) w =
      match lastIdx ws w with
      | some n => some (n + i)
      | none => dlookup d w := by
  induction ws generalizing d i with
  | nil => rfl
  | cons u us ih =>
    rw [vocabDictAux, ih, lastIdx]
    cases hus : lastIdx us w with
    | some n =>
      show some (n + (i + 1)) = some (n + 1 + i)
      exact congrArg some (by omega)
    | none =>
      rw [dlookup_dictInsert]
      by_cases hw : w = u
      · rw [if_pos hw, if_pos hw.symm]
        show some i = some (0 + i)
        rw [Nat.zero_add]
      · rw [if_neg hw, if_neg (fun h => hw h.symm)]

/-- The final id a word receives from the comprehension is the index of its
last occurrence in the vocabulary list. -/
theorem dlookup_vocabDict (v : List String) (w : String) :
    dlookup (vocabDict v) w = lastIdx v w := by
  rw [vocabDict, dlookup_vocabDictAux]
  cases h : lastIdx v w with
  | some n =>
    show some (n + 0) = some n
    rw [Nat.add_zero]
  | none => rfl

theorem mem_keys_vocabDictAux (ws : List String) (d : List (String × Nat))
    (i : Nat) (w : String) :
    w ∈ keys (vocabDictAux d i ws) ↔ w ∈ keys d ∨ w ∈ ws := by
  induction ws generalizing d i with
  | nil => simp [vocabDictAux]
  | cons u us ih =>
    rw [vocabDictAux, ih, mem_keys_dictInsert, List.mem_cons]
    tauto

theorem nodup_keys_vocabDictAux (ws : List String) (d : List (String × Nat))
    (i : Nat) (h : (keys d).Nodup) : (keys (vocabDictAux d i ws)).Nodup := by
  induction ws generalizing d i with
  | nil => exact h
  | cons u us ih => exact ih _ _ (nodup_keys_dictInsert d u i h)

theorem nodup_keys_vocabDict (v : List String) : (keys (vocabDict v)).Nodup :=
  nodup_keys_vocabDictAux v [] 0 (by simp [keys])

theorem mem_keys_vocabDict (v : List String) (w : String) :
    w ∈ keys (vocabDict v) ↔ w ∈ v := by
  rw [vocabDict, mem_keys_vocabDictAux]
  simp [keys]

theorem length_vocabDictAux (ws : List String) (d : List (String × Nat))
    (i : Nat) :
    (vocabDictAux d i ws).length = d.length + (newKeys (keys d) ws).length := by
  induction ws generalizing d i with
  | nil => rfl
  | cons u us ih =>
    rw [vocabDictAux, ih, newKeys, length_dictInsert, keys_dictInsert]
    by_cases hu : u ∈ keys d
    · rw [if_pos hu, if_pos hu, if_pos hu]
    · rw [if_neg hu, if_neg hu, if_neg hu, List.length_cons]
      omega

theorem length_newKeys_le (ws : List String) (seen : List String) :
    (newKeys seen ws).length ≤ ws.length := by
  induction ws generalizing seen with
  | nil => exact Nat.le_refl 0
  | cons u us ih =>
    rw [newKeys]
    by_cases hu : u ∈ seen
    · rw [if_pos hu]
      exact Nat.le_succ_of_le (ih seen)
    · rw [if_neg hu, List.length_cons, List.length_cons]
      exact Nat.succ_le_succ (ih _)

theorem length_newKeys_lt_of_seen (ws : List String) (seen : List String)
    (x : String) (hx : x ∈ seen) (hxs : x ∈ ws) :
    (newKeys seen ws).length < ws.length := by
  induction ws generalizing seen with
  | nil => cases hxs
  | cons u us ih =>
    rw [newKeys]
    by_cases hu : u ∈ seen
    · rw [if_pos hu, List.length_cons]
      exact Nat.lt_succ_of_le (length_newKeys_le us seen)
    · have hxu : x ≠ u := fun h => hu (h ▸ hx)
      have hxus : x ∈ us := by
        rcases List.mem_cons.mp hxs with h | h
        · exact absurd h hxu
        · exact h
      rw [if_neg hu, List.length_cons, List.length_cons]
      exact Nat.succ_lt_succ (ih _ (List.mem_append_left _ hx) hxus)

theorem length_newKeys_lt_of_dup (ws : List String) (seen : List String)
    (h : ¬ ws.Nodup) : (newKeys seen ws).length < ws.length := by
  induction ws generalizing seen with
  | nil => exact absurd List.nodup_nil h
  | cons u us ih =>
    rw [newKeys]
    by_cases hu : u ∈ seen
    · rw [if_pos hu, List.length_cons]
      exact Nat.lt_succ_of_le (length_newKeys_le us seen)
    · rw [if_neg hu, List.length_cons, List.length_cons]
      rw [List.nodup_cons] at h
      push_neg at h
      by_cases hmem : u ∈ us
      · exact Nat.succ_lt_succ
          (length_newKeys_lt_of_seen us _ u (List.mem_append_right _ (List.mem_singleton.mpr rfl)) hmem)
      · exact Nat.succ_lt_succ (ih _ (h hmem))

theorem length_vocabDict_le (v : List String) :
    (vocabDict v).length ≤ v.length := by
  rw [vocabDict, length_vocabDictAux]
  have := length_newKeys_le v (keys [])
  simp only [List.length_nil]
  omega

theorem length_vocabDict_lt_of_dup (v : List String) (h : ¬ v.Nodup) :
    (vocabDict v).length < v.length := by
  rw [vocabDict, length_vocabDictAux]
  have := length_newKeys_lt_of_dup v (keys []) h
  simp only [List.length_nil]
  omega

theorem lastIdx_eq_none_iff (ws : List String) (w : String) :
    lastIdx ws w = none ↔ w ∉ ws := by
  induction ws with
  | nil => simp [lastIdx]
  | cons u us ih =>
    rw [lastIdx]
    cases hus : lastIdx us w with
    | some n =>
      have hmem : w ∈ us := by
        by_contra hc
        rw [ih.mpr hc] at hus
        cases hus
      constructor
      · intro h; cases h
      · intro h
        exact absurd (List.mem_cons_of_mem u hmem) h
    | none =>
      have hw : w ∉ us := ih.mp hus
      by_cases he : u = w
      · simp [he, hw]
      · simp [he, hw, Ne.symm he]

theorem lastIdx_spec (ws : List String) (w : String) (n : Nat)
    (h : lastIdx ws w = some n) :
    ws[n]? = some w ∧ ∀ m, n < m → ws[m]? ≠ some w := by
  induction ws generalizing n with
  | nil => cases h
  | cons u us ih =>
    rw [lastIdx] at h
    cases hus : lastIdx us w with
    | some k =>
      rw [hus] at h
      cases h
      obtain ⟨h1, h2⟩ := ih k hus
      refine ⟨by simpa using h1, ?_⟩
      intro m hm
      match m, hm with
      | m + 1, hm =>
        simpa using h2 m (Nat.lt_of_succ_lt_succ hm)
    | none =>
      rw [hus] at h
      by_cases he : u = w
      · rw [if_pos he] at h
        cases h
        have hw : w ∉ us := (lastIdx_eq_none_iff us w).mp hus
        refine ⟨by simpa using he, ?_⟩
        intro m hm
        match m, hm with
        | m + 1, _ =>
          simp only [List.getElem?_cons_succ]
          intro hc
          exact hw (List.getElem?_mem hc)
      · rw [if_neg he] at h
        cases h

theorem lastIdx_isSome_of_mem (ws : List String) (w : String) (h : w ∈ ws) :
    ∃ n, lastIdx ws w = some n := by
  cases hn : lastIdx ws w with
  | some n => exact ⟨n, rfl⟩
  | none => exact absurd h ((lastIdx_eq_none_iff ws w).mp hn)

/-- When the stripped lines are pairwise distinct the comprehension never
overwrites, and the dict is exactly the enumerated list with words as keys
and their line indices as values. -/
theorem vocabDictAux_of_nodup (ws : List String) (d : List (String × Nat))
    (i : Nat) (hd : ∀ u ∈ ws, u ∉ keys d) (hw : ws.Nodup) :
    vocabDictAux d i ws = d ++ (List.enumFrom i ws).map (fun p => (p.2, p.1)) := by
  induction ws generalizing d i with
  | nil => simp [vocabDictAux]
  | cons u us ih =>
    rw [vocabDictAux]
    have hu : u ∉ keys d := hd u (List.mem_cons_self u us)
    have hins : dictInsert d u i = d ++ [(u, i)] := by
      unfold dictInsert
      rw [if_neg (fun hmem => hu ((any_key_iff d u).mp hmem))]
    rw [hins]
    rw [List.nodup_cons] at hw
    have hd' : ∀ x ∈ us, x ∉ keys (d ++ [(u, i)]) := by
      intro x hx
      rw [keys, List.map_append, List.mem_append]
      rintro (hc | hc)
      · exact hd x (List.mem_cons_of_mem u hx) hc
      · have : x = u := by simpa using hc
        exact hw.1 (this ▸ hx)
    rw [ih _ _ hd' hw.2, List.enumFrom, List.map_cons, List.append_assoc]
    rfl

theorem vocabDict_of_nodup (v : List String) (h : v.Nodup) :
    vocabDict v = v.enum.map (fun p => (p.2, p.1)) := by
  rw [vocabDict, vocabDictAux_of_nodup v [] 0 (by simp [keys]) h, List.nil_append,
    List.enum]

end BuildTokenizer

namespace StreamingDemo

theorem foldl_count (p : String → Bool) (ts : List String) :
    ∀ n : Nat, ts.foldl (fun n t => if p t then n + 1 else n) n =
      n + ts.countP p := by
  induction ts with
  | nil => intro n; simp
  | cons t ts ih =>
    intro n
    rw [List.foldl_cons, List.countP_cons]
    by_cases h : p t = true
    · rw [if_pos h, ih, if_pos h]
      omega
    · rw [if_neg h, ih, if_neg h]
      omega

theorem foldl_redact_tokens (cid : String) (created : Int)
    (ts : List String) : ∀ n : Nat,
    (ts.map (fun t =>
        (sseWire (SseEvent.chunk (mkChunkData cid created (some t) none)),
          some t))).foldl
      (fun n p =>
        match p.2 with
        | some t => if t != "" && strContains t "[REDACTED]" then n + 1 else n
        | none => n) n
    = n + ts.countP (fun t => t != "" && strContains t "[REDACTED]") := by
  induction ts with
  | nil => intro n; simp
  | cons t ts ih =>
    intro n
    rw [List.map_cons, List.foldl_cons]
    show (ts.map _).foldl _
        (if t != "" && strContains t "[REDACTED]" then n + 1 else n) = _
    rw [ih, List.countP_cons]
    by_cases h : (t != "" && strContains t "[REDACTED]") = true
    · rw [if_pos h, if_pos h]
      omega
    · rw [if_neg h, if_neg h]
      omega

theorem redactions_eq_countP (sc : Scenario) (cid : String) (created : Int) :
    run_simulated_redactions sc cid created =
      sc.tokens.countP (fun t => t != "" && strContains t "[REDACTED]") := by
  unfold run_simulated_redactions simulate_sse_stream
    simulate_sse_stream_events
  rw [List.map_append, List.foldl_append, List.map_map]
  show (sc.tokens.map (fun t =>
      (sseWire (SseEvent.chunk (mkChunkData cid created (some t) none)),
        some t))).foldl
      (fun n p =>
        match p.2 with
        | some t => if t != "" && strContains t "[REDACTED]" then n + 1 else n
        | none => n) 0
    = sc.tokens.countP (fun t => t != "" && strContains t "[REDACTED]")
  rw [foldl_redact_tokens]
  omega

theorem stream_getLast (sc : Scenario) (cid : String) (created : Int) :
    (simulate_sse_stream sc cid created).getLast? =
      some ("data: [DONE]\n\n", none) := by
  unfold simulate_sse_stream simulate_sse_stream_events
  rw [List.map_append]
  rw [List.getLast?_append_of_ne_nil _ (by simp)]
  rfl

theorem events_take_tokens (sc : Scenario) (cid : String) (created : Int) :
    (simulate_sse_stream_events sc cid created).take sc.tokens.length =
      sc.tokens.map (fun t =>
        (SseEvent.chunk (mkChunkData cid created (some t) none), some t)) := by
  unfold simulate_sse_stream_events
  rw [show sc.tokens.length = (sc.tokens.map (fun t =>
      (SseEvent.chunk (mkChunkData cid created (some t) none),
        some t))).length from (List.length_map _ _).symm]
  exact List.take_left _ _

theorem filterMap_id_of (l : List String) (f : String → Option String)
    (h : ∀ a ∈ l, f a = some a) : l.filterMap f = l := by
  induction l with
  | nil => rfl
  | cons a l ih =>
    rw [List.filterMap_cons, h a (List.mem_cons_self a l),
      ih (fun x hx => h x (List.mem_cons_of_mem a hx))]

end StreamingDemo

namespace BuildTokenizer

/-- C1 counterexample: in the vocabulary file with lines "a", "a", the
word of line 0 (which is "a") does not receive id 0 - the comprehension
overwrites it with the id of the later line, so the generated mapping
gives it id 1. The claim that the word on line i receives id i is
therefore false as stated. -/
theorem c1_line_id_counterexample :
    (["a", "a"].map pyStrip)[0]? = some "a"
    ∧ dlookup (vocabDict (["a", "a"].map pyStrip)) "a" = some 1
    ∧ some 1 ≠ (some 0 : Option Nat) := by
  decide

/-- C1 (amended): for every vocabulary file whose stripped lines are
pairwise distinct, the generated model.vocab mapping is exactly the
enumeration of the words in file order - the word on line i is paired
with id i - so in file order the ids are 0, 1, 2, ... : strictly
increasing and unique. -/
theorem c1_distinct_lines_sequential_ids (lines : List String)
    (h : (lines.map pyStrip).Nodup) :
    vocabDict (lines.map pyStrip) =
      (lines.map pyStrip).enum.map (fun p => (p.2, p.1))
    ∧ (vocabDict (lines.map pyStrip)).map Prod.snd =
      List.range lines.length := by
  have h1 := vocabDict_of_nodup _ h
  refine ⟨h1, ?_⟩
  rw [h1, List.map_map]
  show (lines.map pyStrip).enum.map Prod.fst = List.range lines.length
  rw [List.enum_map_fst, List.length_map]

/-- Witness for C1 (amended) at the two-line file "a", "b". -/
theorem c1_distinct_lines_sequential_ids_witness :
    (["a", "b"].map pyStrip).Nodup
    ∧ (vocabDict (["a", "b"].map pyStrip) =
        (["a", "b"].map pyStrip).enum.map (fun p => (p.2, p.1))
      ∧ (vocabDict (["a", "b"].map pyStrip)).map Prod.snd =
        List.range (["a", "b"] : List String).length) :=
  ⟨by decide, c1_distinct_lines_sequential_ids ["a", "b"] (by decide)⟩

/-- C2: for every vocabulary file, the added_tokens array of the
generated tokenizer configuration assigns the five special tokens [PAD],
[UNK], [CLS], [SEP], [MASK] the ids 0, 100, 101, 102, 103 respectively,
and the post-processor special_tokens map pins [CLS] to id 101 and [SEP]
to id 102 - independently of the vocabulary content, since these fields
of the template are fixed literals. -/
theorem c2_special_token_ids (lines : List String) :
    ((tokenizer_json (vocabDict (lines.map pyStrip))).added_tokens.map
        (fun t => (t.content, t.id)))
      = [("[PAD]", 0), ("[UNK]", 100), ("[CLS]", 101), ("[SEP]", 102),
          ("[MASK]", 103)]
    ∧ ((tokenizer_json
          (vocabDict (lines.map pyStrip))).post_processor.special_tokens.map
        (fun p => (p.1, p.2.ids)))
      = [("[CLS]", [101]), ("[SEP]", [102])] :=
  ⟨rfl, rfl⟩

/-- C5: the tokenizer builder fails (prints an error and exits with
failure status, the `Except.error` outcome) precisely when the
vocabulary file is missing; for every present file it completes with the
generated document. -/
theorem c5_fails_iff_file_missing (vocabFile : Option (List String)) :
    (∃ e, build_tokenizer_json vocabFile = Except.error e) ↔
      vocabFile = none := by
  cases vocabFile with
  | none =>
    exact ⟨fun _ => rfl, fun _ => ⟨"Error: vocab.txt not found", rfl⟩⟩
  | some lines =>
    constructor
    · rintro ⟨e, he⟩
      simp [build_tokenizer_json] at he
    · intro h
      cases h

/-- C6: every field of the generated tokenizer configuration other than
model.vocab - version, truncation, padding, added_tokens, normalizer,
pre_tokenizer, post_processor, decoder, and the remaining model settings
- is the same for any two vocabulary files, i.e. a fixed constant
independent of the vocabulary content. -/
theorem c6_fixed_fields_independent_of_vocab (lines₁ lines₂ : List String) :
    (tokenizer_json (vocabDict (lines₁.map pyStrip))).version =
        (tokenizer_json (vocabDict (lines₂.map pyStrip))).version
    ∧ (tokenizer_json (vocabDict (lines₁.map pyStrip))).truncation =
        (tokenizer_json (vocabDict (lines₂.map pyStrip))).truncation
    ∧ (tokenizer_json (vocabDict (lines₁.map pyStrip))).padding =
        (tokenizer_json (vocabDict (lines₂.map pyStrip))).padding
    ∧ (tokenizer_json (vocabDict (lines₁.map pyStrip))).added_tokens =
        (tokenizer_json (vocabDict (lines₂.map pyStrip))).added_tokens
    ∧ (tokenizer_json (vocabDict (lines₁.map pyStrip))).normalizer =
        (tokenizer_json (vocabDict (lines₂.map pyStrip))).normalizer
    ∧ (tokenizer_json (vocabDict (lines₁.map pyStrip))).pre_tokenizer =
        (tokenizer_json (vocabDict (lines₂.map pyStrip))).pre_tokenizer
    ∧ (tokenizer_json (vocabDict (lines₁.map pyStrip))).post_processor =
        (tokenizer_json (vocabDict (lines₂.map pyStrip))).post_processor
    ∧ (tokenizer_json (vocabDict (lines₁.map pyStrip))).decoder =
        (tokenizer_json (vocabDict (lines₂.map pyStrip))).decoder
    ∧ (tokenizer_json (vocabDict (lines₁.map pyStrip))).model.type =
        (tokenizer_json (vocabDict (lines₂.map pyStrip))).model.type
    ∧ (tokenizer_json (vocabDict (lines₁.map pyStrip))).model.unk_token =
        (tokenizer_json (vocabDict (lines₂.map pyStrip))).model.unk_token
    ∧ (tokenizer_json
          (vocabDict (lines₁.map pyStrip))).model.continuingSubwordPrefixStr =
        (tokenizer_json
          (vocabDict (lines₂.map pyStrip))).model.continuingSubwordPrefixStr
    ∧ (tokenizer_json
          (vocabDict (lines₁.map pyStrip))).model.max_input_chars_per_word =
        (tokenizer_json
          (vocabDict (lines₂.map pyStrip))).model.max_input_chars_per_word :=
  ⟨rfl, rfl, rfl, rfl, rfl, rfl, rfl, rfl, rfl, rfl, rfl, rfl⟩

/-- C9: when the same stripped word appears on two lines i < j of the
vocabulary file, the generated mapping holds a single entry for that
word, its id is the index of the word's last occurrence (`lastIdx`, an
index at least j at which the word sits), and the mapping has strictly
fewer entries than the file has lines. -/
theorem c9_duplicate_last_occurrence_wins (lines : List String) (w : String)
    (i j : Nat) (hij : i < j)
    (hi : (lines.map pyStrip)[i]? = some w)
    (hj : (lines.map pyStrip)[j]? = some w) :
    ((vocabDict (lines.map pyStrip)).filter (fun p => p.1 == w)).length = 1
    ∧ dlookup (vocabDict (lines.map pyStrip)) w =
        lastIdx (lines.map pyStrip) w
    ∧ (∃ n, lastIdx (lines.map pyStrip) w = some n ∧ j ≤ n
        ∧ (lines.map pyStrip)[n]? = some w)
    ∧ (vocabDict (lines.map pyStrip)).length < lines.length := by
  have hwv : w ∈ lines.map pyStrip := List.getElem?_mem hi
  refine ⟨?_, dlookup_vocabDict _ w, ?_, ?_⟩
  · have hnd := nodup_keys_vocabDict (lines.map pyStrip)
    have hkm : w ∈ keys (vocabDict (lines.map pyStrip)) :=
      (mem_keys_vocabDict _ w).mpr hwv
    have hcount : (keys (vocabDict (lines.map pyStrip))).count w = 1 :=
      List.count_eq_one_of_mem hnd hkm
    calc ((vocabDict (lines.map pyStrip)).filter
            (fun p => p.1 == w)).length
        = (vocabDict (lines.map pyStrip)).countP (fun p => p.1 == w) :=
          (List.countP_eq_length_filter _ _).symm
      _ = (keys (vocabDict (lines.map pyStrip))).countP (· == w) := by
          rw [keys, List.countP_map]
          rfl
      _ = 1 := hcount
  · obtain ⟨n, hn⟩ := lastIdx_isSome_of_mem _ w hwv
    obtain ⟨hg, hlast⟩ := lastIdx_spec _ w n hn
    have hjn : j ≤ n := by
      by_contra hc
      push_neg at hc
      exact hlast j hc hj
    exact ⟨n, hn, hjn, hg⟩
  · have hilt : i < (lines.map pyStrip).length := by
      rcases List.getElem?_eq_some.mp hi with ⟨hh, _⟩
      exact hh
    have hdup : ¬ (lines.map pyStrip).Nodup := by
      intro hnd
      exact absurd (List.getElem?_inj hilt hnd (hi.trans hj.symm)) (Nat.ne_of_lt hij)
    have := length_vocabDict_lt_of_dup _ hdup
    rwa [List.length_map] at this

/-- Witness for C9 at the file with lines "a", "b", "a" (word "a" on
lines 0 and 2). -/
theorem c9_duplicate_last_occurrence_wins_witness :
    (0 : Nat) < 2
    ∧ (["a", "b", "a"].map pyStrip)[0]? = some "a"
    ∧ (["a", "b", "a"].map pyStrip)[2]? = some "a"
    ∧ (((vocabDict (["a", "b", "a"].map pyStrip)).filter
          (fun p => p.1 == "a")).length = 1
      ∧ dlookup (vocabDict (["a", "b", "a"].map pyStrip)) "a" =
          lastIdx (["a", "b", "a"].map pyStrip) "a"
      ∧ (∃ n, lastIdx (["a", "b", "a"].map pyStrip) "a" = some n ∧ 2 ≤ n
          ∧ (["a", "b", "a"].map pyStrip)[n]? = some "a")
      ∧ (vocabDict (["a", "b", "a"].map pyStrip)).length <
          (["a", "b", "a"] : List String).length) :=
  ⟨by decide, by decide, by decide,
    c9_duplicate_last_occurrence_wins ["a", "b", "a"] "a" 0 2 (by decide)
      (by decide) (by decide)⟩

end BuildTokenizer

namespace StreamingDemo

/-- C3: for every scenario (in particular each entry of
SIMULATED_RESPONSES) and any chunk id and timestamp, the redaction count
reported by the simulated demo run equals the number of emitted tokens
containing the substring "[REDACTED]". -/
theorem c3_redaction_count (sc : Scenario) (cid : String) (created : Int) :
    run_simulated_redactions sc cid created =
      (sc.tokens.filter (fun t => strContains t "[REDACTED]")).length := by
  rw [redactions_eq_countP, ← List.countP_eq_length_filter]
  refine List.countP_congr (fun t _ => ?_)
  by_cases he : t = ""
  · subst he
    have hf : strContains "" "[REDACTED]" = false := by decide
    simp [hf]
  · simp [he]

/-- C4: for every scenario (in particular each entry of
SIMULATED_RESPONSES), the simulated SSE stream is a finite list of
events whose final element is the sentinel wire line "data: [DONE]\n\n"
(paired with no token). -/
theorem c4_stream_ends_with_done_sentinel (sc : Scenario) (cid : String)
    (created : Int) :
    (simulate_sse_stream sc cid created).getLast? =
      some ("data: [DONE]\n\n", none) :=
  stream_getLast sc cid created

/-- C7: for every scenario all of whose tokens are nonempty (true of
every entry of SIMULATED_RESPONSES), the stream emits exactly one SSE
chunk per input token, in token-list order, each carrying that token as
its delta content; the only further events are the finish_reason chunk
and the sentinel, and the stream halts after emitting the sentinel as
its final line (see `streamEmissionSpec`). -/
theorem c7_one_event_per_token (sc : Scenario)
    (hne : ∀ t ∈ sc.tokens, t ≠ "") (cid : String) (created : Int) :
    streamEmissionSpec sc cid created := by
  refine ⟨events_take_tokens sc cid created, ?_, ?_,
    stream_getLast sc cid created⟩
  · unfold simulate_sse_stream_events
    rw [List.filterMap_append, List.filterMap_map]
    have h1 : sc.tokens.filterMap
        ((fun p : SseEvent × Option String => eventDelta p.1) ∘
          (fun t => (SseEvent.chunk (mkChunkData cid created (some t) none),
            some t))) = sc.tokens := by
      apply filterMap_id_of
      intro t ht
      show eventDelta
        (SseEvent.chunk (mkChunkData cid created (some t) none)) = some t
      simp [eventDelta, mkChunkData, hne t ht]
    rw [h1]
    rw [show List.filterMap
          (fun p : SseEvent × Option String => eventDelta p.1)
          [(SseEvent.chunk (mkChunkData cid created none sc.finishReason),
              none),
            (SseEvent.doneMarker, none)] = ([] : List String) from rfl,
      List.append_nil]
  · unfold simulate_sse_stream_events
    simp [List.length_append, List.length_map]

/-- Witness for C7 at the "normal" scenario of SIMULATED_RESPONSES. -/
theorem c7_one_event_per_token_witness :
    (∀ t ∈ scenarioNormal.tokens, t ≠ "")
    ∧ streamEmissionSpec scenarioNormal "chatcmpl-demo-0" 0 :=
  ⟨by decide, c7_one_event_per_token scenarioNormal (by decide)
    "chatcmpl-demo-0" 0⟩

/-- C8 counterexample: with the requests library present, the openai
library absent, and raw display selected, stream_real_sse streams the
raw SSE output and reports nothing - so "when an optional dependency
(requests or openai) is absent the feature reports it and is skipped" is
false as stated: the openai library is only needed by the parsed
(non-raw) display path. -/
theorem c8_openai_absent_raw_counterexample :
    (stream_real_sse true false true).displayedStream = true
    ∧ (stream_real_sse true false true).missingReported = none := by
  decide

/-- C8 (amended): when the requests library is absent the function
reports it and returns without posting or displaying anything, whatever
the other flags; when the openai library is absent and the parsed
(non-raw) display mode is selected, the function reports it and returns
without displaying a stream. In both cases nothing is raised - the
outcome is an ordinary return. -/
theorem c8_missing_dependency_reported_and_skipped :
    ∀ openaiAvailable showRaw : Bool,
      (stream_real_sse false openaiAvailable showRaw).missingReported =
          some "requests"
      ∧ (stream_real_sse false openaiAvailable showRaw).displayedStream =
          false
      ∧ (stream_real_sse false openaiAvailable showRaw).postedRequest =
          false
      ∧ (stream_real_sse true false false).missingReported = some "openai"
      ∧ (stream_real_sse true false false).displayedStream = false := by
  decide

/-- C10: for every scenario (in particular each entry of
SIMULATED_RESPONSES), the second-to-last event of the simulated stream
(index tokens.length of a list of length tokens.length + 2) is a chunk
whose delta object is empty and whose finish_reason is the scenario's
configured value, and every chunk before it carries finish_reason
null. -/
theorem c10_final_chunk_carries_finish_reason (sc : Scenario)
    (cid : String) (created : Int) :
    (simulate_sse_stream_events sc cid created)[sc.tokens.length]? =
        some (SseEvent.chunk (mkChunkData cid created none sc.finishReason),
          none)
    ∧ (simulate_sse_stream_events sc cid created).length =
        sc.tokens.length + 2
    ∧ eventDelta
        (SseEvent.chunk (mkChunkData cid created none sc.finishReason)) =
        none
    ∧ eventFinishReason
        (SseEvent.chunk (mkChunkData cid created none sc.finishReason)) =
        some sc.finishReason
    ∧ ((simulate_sse_stream_events sc cid created).take
          sc.tokens.length).all
        (fun p => eventFinishReason p.1 == some none) = true := by
  refine ⟨?_, ?_, rfl, rfl, ?_⟩
  · unfold simulate_sse_stream_events
    rw [List.getElem?_append_right (List.length_map _ _).le]
    rw [List.length_map, Nat.sub_self]
    rfl
  · unfold simulate_sse_stream_events
    simp [List.length_append, List.length_map]
  · rw [events_take_tokens, List.all_eq_true]
    intro p hp
    rcases List.mem_map.mp hp with ⟨t, _, rfl⟩
    rfl

end StreamingDemo
